import Mathlib

/-!
# Verification of the `wapps` host core

A shallow embedding of the core of the `wapps` repository (a host that loads a
`.wapp` package, runs the contained WebAssembly module in a sandbox, and hands
rendered frames to a presentation layer), together with theorems settling the
specification claims.

Embedded components, each translated from the Rust source:

* the WAPP container loader (`src/host/src/loader.rs`);
* the frame hand-off buffer (`src/host/src/host_interface.rs`);
* the `update_frame` host import, i.e. the memory bridge
  (`src/host/src/runtime.rs`, closure registered in `WasmRuntime::new`);
* the export-resolution step of module instantiation
  (`src/host/src/runtime.rs`, `WasmRuntime::new` after `linker.instantiate`).

Machine integers are modelled as `Nat`/`Int` with explicit wrapping (`% 2^32`,
`% 2^64`) where the Rust code can overflow; release-build (wrapping, non-panicking)
semantics are used for arithmetic overflow, while slice-indexing violations, which
panic in every build profile, are modelled as `Option.none`.
-/

namespace Wapps

/-- A byte of the on-disk file or of guest memory (value `< 256` in practice). -/
abbrev Byte := Nat

/-! ## Container loader (`src/host/src/loader.rs`) -/

/-- `WAPP_MAGIC`: the magic bytes `b"WAPP"`. -/
def WAPP_MAGIC : List Byte := [0x57, 0x41, 0x50, 0x50]

/-- `WAPP_VERSION`: the single supported format version byte. -/
def WAPP_VERSION : Byte := 0x01

/-- `WAPP_MIN_SIZE`: 5 byte header + 1 name null + 1 desc null + minimal WASM header. -/
def WAPP_MIN_SIZE : Nat := 5 + 1 + 1 + 8

/-- The WebAssembly magic bytes `b"\0asm"` checked on the payload. -/
def WASM_MAGIC : List Byte := [0x00, 0x61, 0x73, 0x6D]

/-- `WappMetadata`: name and description strings. Rust `String`s are UTF-8 byte
vectors; we carry the raw bytes. -/
structure WappMetadata where
  name : List Byte
  descr : List Byte
  deriving Repr, DecidableEq

/-- The two failure causes of `read_null_terminated`. -/
inductive StrFieldError where
  | missingNull
  | invalidUtf8
  deriving Repr, DecidableEq

/-- Whether `b` is a UTF-8 continuation byte (`0x80 ..= 0xBF`). -/
def utf8Cont (b : Byte) : Prop := 0x80 ≤ b ∧ b ≤ 0xBF

instance (b : Byte) : Decidable (utf8Cont b) := by unfold utf8Cont; infer_instance

/-- Validity of a byte sequence as UTF-8, mirroring the acceptance condition of
Rust's `std::str::from_utf8` (RFC 3629: no surrogates, no overlong forms,
code points at most `U+10FFFF`). -/
def utf8Valid : List Byte → Bool
  | [] => true
  | b :: rest =>
    if b ≤ 0x7F then utf8Valid rest
    else if 0xC2 ≤ b ∧ b ≤ 0xDF then
      match rest with
      | c1 :: rest2 => decide (utf8Cont c1) && utf8Valid rest2
      | [] => false
    else if b = 0xE0 then
      match rest with
      | c1 :: c2 :: rest2 =>
          decide (0xA0 ≤ c1 ∧ c1 ≤ 0xBF) && decide (utf8Cont c2) && utf8Valid rest2
      | _ => false
    else if (0xE1 ≤ b ∧ b ≤ 0xEC) ∨ b = 0xEE ∨ b = 0xEF then
      match rest with
      | c1 :: c2 :: rest2 =>
          decide (utf8Cont c1) && decide (utf8Cont c2) && utf8Valid rest2
      | _ => false
    else if b = 0xED then
      match rest with
      | c1 :: c2 :: rest2 =>
          decide (0x80 ≤ c1 ∧ c1 ≤ 0x9F) && decide (utf8Cont c2) && utf8Valid rest2
      | _ => false
    else if b = 0xF0 then
      match rest with
      | c1 :: c2 :: c3 :: rest2 =>
          decide (0x90 ≤ c1 ∧ c1 ≤ 0xBF) && decide (utf8Cont c2) && decide (utf8Cont c3) &&
            utf8Valid rest2
      | _ => false
    else if 0xF1 ≤ b ∧ b ≤ 0xF3 then
      match rest with
      | c1 :: c2 :: c3 :: rest2 =>
          decide (utf8Cont c1) && decide (utf8Cont c2) && decide (utf8Cont c3) && utf8Valid rest2
      | _ => false
    else if b = 0xF4 then
      match rest with
      | c1 :: c2 :: c3 :: rest2 =>
          decide (0x80 ≤ c1 ∧ c1 ≤ 0x8F) && decide (utf8Cont c2) && decide (utf8Cont c3) &&
            utf8Valid rest2
      | _ => false
    else false

/-- `Iterator::position`: index of the first element satisfying `p`. -/
def position (p : Byte → Bool) : List Byte → Option Nat
  | [] => none
  | b :: rest => if p b then some 0 else (position p rest).map (· + 1)

/-- `read_null_terminated` (loader.rs): read a null-terminated UTF-8 string out of
`data`, searching for the terminator only within `min maxLen data.length` bytes.
Returns the content bytes and the number of bytes consumed (content + null). -/
def read_null_terminated (data : List Byte) (maxLen : Nat) :
    Except StrFieldError (List Byte × Nat) :=
  match position (fun b => b == 0) (data.take (min maxLen data.length)) with
  | some pos =>
      if utf8Valid (data.take pos) then .ok (data.take pos, pos + 1)
      else .error .invalidUtf8
  | none => .error .missingNull

/-- The distinct failure exits of `load_wapp`, one per `bail!`/`context` site
(the Rust code raises `anyhow` errors carrying messages; we name the sites). -/
inductive LoadError where
  | tooSmall
  | badMagic
  | unsupportedVersion
  | nameMissingNull
  | nameInvalidUtf8
  | descMissingNull
  | descInvalidUtf8
  | invalidWasmMagic
  deriving Repr, DecidableEq

/-- `load_wapp` (loader.rs): parse and validate a WAPP file already read into
memory, returning the WASM payload bytes and the metadata. Mirrors the source
line by line: minimum-size check, magic check, single version byte at offset 4,
null-terminated name (limit 256) from offset 5, null-terminated description
(limit 1024), remainder as payload, with the WASM magic checked only when the
payload has at least 4 bytes. -/
def load_wapp (data : List Byte) : Except LoadError (List Byte × WappMetadata) :=
  if data.length < WAPP_MIN_SIZE then .error .tooSmall
  else if data.take 4 ≠ WAPP_MAGIC then .error .badMagic
  else if data.getD 4 0 ≠ WAPP_VERSION then .error .unsupportedVersion
  else
    match read_null_terminated (data.drop 5) 256 with
    | .error .missingNull => .error .nameMissingNull
    | .error .invalidUtf8 => .error .nameInvalidUtf8
    | .ok (name, c1) =>
      match read_null_terminated (data.drop (5 + c1)) 1024 with
      | .error .missingNull => .error .descMissingNull
      | .error .invalidUtf8 => .error .descInvalidUtf8
      | .ok (descr, c2) =>
        if 4 ≤ (data.drop (5 + c1 + c2)).length then
          if (data.drop (5 + c1 + c2)).take 4 ≠ WASM_MAGIC then .error .invalidWasmMagic
          else .ok (data.drop (5 + c1 + c2), ⟨name, descr⟩)
        else .ok (data.drop (5 + c1 + c2), ⟨name, descr⟩)

/-- The serializer matching the loader's actual on-disk layout, documented at the
top of loader.rs: magic, one version byte, null-terminated name, null-terminated
description, module bytes verbatim. -/
def write_wapp (meta : WappMetadata) (payload : List Byte) : List Byte :=
  WAPP_MAGIC ++ [WAPP_VERSION] ++ meta.name ++ [0] ++ meta.descr ++ [0] ++ payload

/-- Modelled from the spec: the container layout of spec section 6, which is NOT
what the source implements — fixed 4-byte magic, 4-byte little-endian version,
4-byte little-endian metadata length N, N metadata bytes, then the payload. Kept
to compare the spec's round-trip claim against the loader from the source. -/
def write_wapp_specLayout (metaBytes payload : List Byte) : List Byte :=
  WAPP_MAGIC ++ [1, 0, 0, 0] ++
    [metaBytes.length % 256, metaBytes.length / 256 % 256,
     metaBytes.length / 256 ^ 2 % 256, metaBytes.length / 256 ^ 3 % 256] ++
    metaBytes ++ payload

/-- The value of a 4-byte little-endian field at byte offset `off` of a file
(used to state claims phrased in terms of the spec's 4-byte version field). -/
def readU32le (data : List Byte) (off : Nat) : Nat :=
  data.getD off 0 + 256 * data.getD (off + 1) 0 +
    256 ^ 2 * data.getD (off + 2) 0 + 256 ^ 3 * data.getD (off + 3) 0

/-! ## Frame hand-off buffer (`src/host/src/host_interface.rs`) -/

/-- `HostInterface`: the frame hand-off buffer. `frame_buffer` holds the bytes of
the reusable `Vec<u8>`; raw capacity beyond the vector's length is uninitialized
and unobservable, so only the contents are modelled. -/
structure HostInterface where
  frame_width : Int
  frame_height : Int
  frame_buffer : List Byte
  frame_len : Nat
  frame_dirty : Bool
  deriving Repr, DecidableEq

/-- `HostInterface::new`. -/
def HostInterface.new : HostInterface :=
  { frame_width := 0, frame_height := 0, frame_buffer := [], frame_len := 0,
    frame_dirty := false }

/-- `Vec::resize(n, 0)`: truncate to `n` elements or pad with zeroes up to `n`. -/
def vecResize (v : List Byte) (n : Nat) : List Byte :=
  v.take n ++ List.replicate (n - v.length) 0

/-- `<[u8]>::copy_from_slice`: overwrite `dst` with `src`. The Rust function
panics when the lengths differ; in `set_frame` the destination has just been
resized to the source's length (`vecResize_length`), so that branch is dead and
is modelled as the identity. -/
def copyFromSlice (dst src : List Byte) : List Byte :=
  if dst.length = src.length then src else dst

/-- `HostInterface::set_frame`: store a new frame from the guest, reusing the
buffer storage (resize to the pixel count, then copy), and mark it dirty. -/
def HostInterface.set_frame (s : HostInterface) (width height : Int)
    (pixels : List Byte) : HostInterface :=
  { frame_width := width
    frame_height := height
    frame_len := pixels.length
    frame_buffer := copyFromSlice (vecResize s.frame_buffer pixels.length) pixels
    frame_dirty := true }

/-- `HostInterface::borrow_frame` (the spec's `take_frame`): if a new frame is
available, clear the dirty flag and return `(width, height, buffer[..frame_len])`;
otherwise report no new frame. Returns the read result and the updated state. -/
def HostInterface.borrow_frame (s : HostInterface) :
    Option (Int × Int × List Byte) × HostInterface :=
  if s.frame_dirty then
    (some (s.frame_width, s.frame_height, s.frame_buffer.take s.frame_len),
      { s with frame_dirty := false })
  else (none, s)

/-! ## Memory bridge (`src/host/src/runtime.rs`, the `update_frame` import) -/

/-- Wrap an integer to the `i32` range (Rust release-build wrapping arithmetic). -/
def wrapI32 (n : Int) : Int := (n + 2 ^ 31) % 2 ^ 32 - 2 ^ 31

/-- `as usize` on an `i32` value: sign-extend to 64 bits. For `n` in
`[-2^31, 2^31)` this is `n` itself when non-negative and `2^64 + n` otherwise. -/
def i32ToUsize (n : Int) : Nat := (n % 2 ^ 64).toNat

/-- The `usize` modulus. -/
def U64_MOD : Nat := 2 ^ 64

/-- The `wapps::update_frame` host import registered in `WasmRuntime::new`
(runtime.rs): given the guest's exported linear memory contents `mem` and the
current hand-off buffer `host`, compute `len = (width * height * 4) as usize`
and `ptr = pixels_ptr as usize` (i32 arithmetic wrapping in release builds,
sign-extending casts), return with no copy when `ptr + len > mem.length`
(a logged bounds violation), and otherwise copy `mem[ptr .. ptr+len]` into the
buffer via `set_frame`. `none` models the panic of the slice index `ptr..ptr+len`
when the wrapped end of the range falls below `ptr`. -/
def update_frame (mem : List Byte) (host : HostInterface)
    (width height pixels_ptr : Int) : Option HostInterface :=
  let ptr : Nat := i32ToUsize pixels_ptr
  let len : Nat := i32ToUsize (wrapI32 (wrapI32 (width * height) * 4))
  let stop : Nat := (ptr + len) % U64_MOD
  if stop > mem.length then some host
  else if ptr ≤ stop then
    some (host.set_frame width height ((mem.take stop).drop ptr))
  else none

/-! ## Export resolution at instantiation (`src/host/src/runtime.rs`) -/

/-- The fixed argument signatures of the guest entry points (all return nothing). -/
inductive FuncSig where
  | f64_unit
  | i32x2_unit
  | i32x3_unit
  | i32_unit
  deriving Repr, DecidableEq

/-- What a guest module exports under one name: a linear memory or a function
with some signature. -/
inductive ExportDesc where
  | memory
  | func (sig : FuncSig)
  deriving Repr, DecidableEq

/-- The export map of an instantiated guest module. -/
abbrev ModuleExports := List (String × ExportDesc)

/-- `Instance::get_memory(store, "memory")`: present exactly when the module
exports a linear memory under the name `memory`. -/
def get_memory (m : ModuleExports) : Option Unit :=
  match m.lookup ("memory" : String) with
  | some .memory => some ()
  | _ => none

/-- `Instance::get_typed_func::<Sig>(store, name).ok()`: present exactly when the
module exports a function under `name` with exactly the requested signature;
absence or a signature mismatch yields `none`. -/
def get_typed_func (m : ModuleExports) (name : String) (sig : FuncSig) : Option Unit :=
  match m.lookup name with
  | some (.func s) => if s = sig then some () else none
  | _ => none

/-- Instantiation failures distinguished by the spec's taxonomy; the two modelled
here are the export-resolution failures of `WasmRuntime::new` (compilation and
linker instantiation are performed by the Wasmtime engine, a black box the spec
places out of scope). -/
inductive SandboxInitError where
  | missingMemoryExport
  | missingRequiredExport
  deriving Repr, DecidableEq

/-- The cached entry-point handles of `WasmRuntime` (presence only). -/
structure EntryPoints where
  update_fn : Option Unit
  on_resize_fn : Option Unit
  on_pointer_move_fn : Option Unit
  on_pointer_down_fn : Option Unit
  on_pointer_up_fn : Option Unit
  on_key_down_fn : Option Unit
  on_key_up_fn : Option Unit
  deriving Repr, DecidableEq

/-- The export-resolution tail of `WasmRuntime::new` (runtime.rs lines 131-168):
require the `memory` export first (fatal when absent), resolve the seven entry
points by name and fixed signature keeping absence/mismatch as `none`, then fail
when `update` did not resolve. -/
def resolve_instance (m : ModuleExports) : Except SandboxInitError EntryPoints :=
  match get_memory m with
  | none => .error .missingMemoryExport
  | some _ =>
    let update_fn := get_typed_func m ("update" : String) .f64_unit
    let on_resize_fn := get_typed_func m ("on_resize" : String) .i32x2_unit
    let on_pointer_move_fn := get_typed_func m ("on_pointer_move" : String) .i32x2_unit
    let on_pointer_down_fn := get_typed_func m ("on_pointer_down" : String) .i32x3_unit
    let on_pointer_up_fn := get_typed_func m ("on_pointer_up" : String) .i32x3_unit
    let on_key_down_fn := get_typed_func m ("on_key_down" : String) .i32_unit
    let on_key_up_fn := get_typed_func m ("on_key_up" : String) .i32_unit
    if update_fn.isNone then .error .missingRequiredExport
    else .ok ⟨update_fn, on_resize_fn, on_pointer_move_fn, on_pointer_down_fn,
      on_pointer_up_fn, on_key_down_fn, on_key_up_fn⟩

/-! ## Producer/consumer traces over the hand-off buffer -/

/-- One operation on the frame hand-off buffer: a producer-side `set_frame` or a
consumer-side `take_frame`. -/
inductive FrameOp where
  | set (width height : Int) (pixels : List Byte)
  | take
  deriving Repr

/-- Apply one operation to the buffer state. -/
def stepFrame (s : HostInterface) : FrameOp → HostInterface
  | .set w h p => s.set_frame w h p
  | .take => (s.borrow_frame).2

/-- Run a sequence of operations. -/
def runFrameOps (s : HostInterface) (ops : List FrameOp) : HostInterface :=
  ops.foldl stepFrame s

/-- One step of `lastSetPixels`: a `set` overwrites the accumulator. -/
def lastSetStep (acc : Option (List Byte)) (op : FrameOp) : Option (List Byte) :=
  match op with
  | .set _ _ p => some p
  | .take => acc

/-- The pixel data of the most recent `set` in a trace, if any. -/
def lastSetPixels (ops : List FrameOp) : Option (List Byte) :=
  ops.foldl lastSetStep none

/-! ## Loader lemmas -/

theorem position_append_of_not (p : Byte → Bool) (s t : List Byte) (x : Byte)
    (hs : ∀ b ∈ s, p b = false) (hx : p x = true) :
    position p (s ++ x :: t) = some s.length := by
  induction s with
  | nil => simp [position, hx]
  | cons a s ih =>
    have ha : p a = false := hs a (by simp)
    have ih2 := ih (fun b hb => hs b (by simp [hb]))
    simp [position, ha, ih2]

theorem read_null_terminated_ok (s rest : List Byte) (maxLen : Nat)
    (hnz : ∀ b ∈ s, b ≠ 0) (hlen : s.length < maxLen) (hutf : utf8Valid s = true) :
    read_null_terminated (s ++ 0 :: rest) maxLen = .ok (s, s.length + 1) := by
  have htot : (s ++ 0 :: rest).length = s.length + (rest.length + 1) := by
    simp [List.length_append]
  have hmin : s.length + 1 ≤ min maxLen (s ++ 0 :: rest).length := by
    refine le_min (by omega) (by omega)
  obtain ⟨k, hk⟩ : ∃ k, min maxLen (s ++ 0 :: rest).length - s.length = k + 1 :=
    ⟨min maxLen (s ++ 0 :: rest).length - s.length - 1, by omega⟩
  have htake : (s ++ 0 :: rest).take (min maxLen (s ++ 0 :: rest).length) =
      s ++ 0 :: rest.take k := by
    rw [List.take_append_eq_append_take,
      List.take_of_length_le (by omega : s.length ≤ min maxLen (s ++ 0 :: rest).length),
      hk, List.take_succ_cons]
  have hpos : position (fun b => b == 0) (s ++ 0 :: rest.take k) = some s.length := by
    refine position_append_of_not _ s _ 0 (fun b hb => ?_) (by simp)
    simpa using hnz b hb
  have hts : List.take s.length (s ++ 0 :: rest) = s := List.take_left' rfl
  unfold read_null_terminated
  rw [htake, hpos]
  simp [hts, hutf]

theorem load_wapp_stage (data name descr : List Byte) (c1 c2 : Nat)
    (hlen : WAPP_MIN_SIZE ≤ data.length)
    (hmagic : data.take 4 = WAPP_MAGIC)
    (hver : data.getD 4 0 = WAPP_VERSION)
    (hname : read_null_terminated (data.drop 5) 256 = .ok (name, c1))
    (hdesc : read_null_terminated (data.drop (5 + c1)) 1024 = .ok (descr, c2)) :
    load_wapp data =
      if 4 ≤ (data.drop (5 + c1 + c2)).length then
        if (data.drop (5 + c1 + c2)).take 4 ≠ WASM_MAGIC then .error .invalidWasmMagic
        else .ok (data.drop (5 + c1 + c2), ⟨name, descr⟩)
      else .ok (data.drop (5 + c1 + c2), ⟨name, descr⟩) := by
  have h1 : ¬ data.length < WAPP_MIN_SIZE := by omega
  unfold load_wapp
  rw [if_neg h1, if_neg (by rw [hmagic]; exact fun hc => hc rfl),
    if_neg (by rw [hver]; exact fun hc => hc rfl)]
  simp only [hname, hdesc]

/-- C4. For any input file shorter than the fixed container header size, loading
fails with the truncated-file error (the loader's single too-small `bail!`; the
source in fact rejects anything below `WAPP_MIN_SIZE = 15` bytes this way). The
Lean model is a total function, so this branch provably performs no partial
indexing: the Rust code indexes `data` only after this length check. -/
theorem load_wapp_short_file_fails (data : List Byte) (h : data.length < 12) :
    load_wapp data = .error .tooSmall := by
  have h1 : data.length < WAPP_MIN_SIZE := by unfold WAPP_MIN_SIZE; omega
  unfold load_wapp
  rw [if_pos h1]

theorem load_wapp_short_file_fails_witness :
    ([0x57, 0x41, 0x50, 0x50] : List Byte).length < 12 ∧
      load_wapp [0x57, 0x41, 0x50, 0x50] = .error .tooSmall :=
  ⟨by decide, load_wapp_short_file_fails [0x57, 0x41, 0x50, 0x50] (by decide)⟩

/-- C2 counterexample. Serializing a metadata block and a WASM-magic-led payload
into the container layout claimed by the spec (4-byte little-endian version,
length-prefixed metadata) and loading the result does NOT round-trip: the loader
reads a 1-byte version and two null-terminated strings, so it misparses the
spec-layout file and rejects it. Metadata block `\x7b\x7d` (a two-byte block),
payload = minimal 8-byte WASM header. -/
theorem specLayout_roundTrip_fails :
    ([0, 0x61, 0x73, 0x6D, 1, 0, 0, 0] : List Byte).take 4 = WASM_MAGIC ∧
    load_wapp (write_wapp_specLayout [123, 125] [0, 0x61, 0x73, 0x6D, 1, 0, 0, 0]) =
      .error .invalidWasmMagic :=
  ⟨rfl, rfl⟩

/-- C2 amended. Round-trip holds for the layout the loader actually implements
(`write_wapp`: magic, one version byte, null-terminated name, null-terminated
description, payload): for every metadata record whose strings are valid UTF-8,
free of null bytes and within the 256/1024 field limits, and every payload that
begins with the WASM magic and has at least the 8-byte minimal module size,
loading the serialized container returns exactly the payload and metadata. -/
theorem load_write_roundTrip (meta : WappMetadata) (payload : List Byte)
    (hname_len : meta.name.length < 256)
    (hname_nz : ∀ b ∈ meta.name, b ≠ 0)
    (hname_utf8 : utf8Valid meta.name = true)
    (hdesc_len : meta.descr.length < 1024)
    (hdesc_nz : ∀ b ∈ meta.descr, b ≠ 0)
    (hdesc_utf8 : utf8Valid meta.descr = true)
    (hpmagic : payload.take 4 = WASM_MAGIC)
    (hplen : 8 ≤ payload.length) :
    load_wapp (write_wapp meta payload) = .ok (payload, meta) := by
  have hdata : write_wapp meta payload =
      (WAPP_MAGIC ++ [WAPP_VERSION]) ++ (meta.name ++ 0 :: (meta.descr ++ 0 :: payload)) := by
    simp [write_wapp, List.append_assoc]
  have hdata2 : write_wapp meta payload =
      WAPP_MAGIC ++ WAPP_VERSION :: (meta.name ++ 0 :: (meta.descr ++ 0 :: payload)) := by
    simp [write_wapp, List.append_assoc]
  have hlen : WAPP_MIN_SIZE ≤ (write_wapp meta payload).length := by
    simp only [write_wapp, WAPP_MIN_SIZE, List.length_append, WAPP_MAGIC,
      List.length_cons, List.length_singleton, List.length_nil]
    omega
  have hm : (write_wapp meta payload).take 4 = WAPP_MAGIC := by
    rw [hdata2]; exact List.take_left' rfl
  have hv : (write_wapp meta payload).getD 4 0 = WAPP_VERSION := by
    rw [hdata2, List.getD_append_right _ _ _ _ (by simp [WAPP_MAGIC])]
    simp [WAPP_MAGIC]
  have h5 : (write_wapp meta payload).drop 5 =
      meta.name ++ 0 :: (meta.descr ++ 0 :: payload) := by
    rw [hdata]; exact List.drop_left' rfl
  have hname : read_null_terminated ((write_wapp meta payload).drop 5) 256 =
      .ok (meta.name, meta.name.length + 1) := by
    rw [h5]; exact read_null_terminated_ok _ _ _ hname_nz hname_len hname_utf8
  have hdn : (write_wapp meta payload).drop (5 + (meta.name.length + 1)) =
      meta.descr ++ 0 :: payload := by
    have hgroup : write_wapp meta payload =
        ((WAPP_MAGIC ++ [WAPP_VERSION]) ++ meta.name ++ [0]) ++ (meta.descr ++ 0 :: payload) := by
      simp [write_wapp, List.append_assoc]
    rw [hgroup]
    refine List.drop_left' ?_
    simp [WAPP_MAGIC, List.length_append]
    omega
  have hdesc : read_null_terminated
      ((write_wapp meta payload).drop (5 + (meta.name.length + 1))) 1024 =
      .ok (meta.descr, meta.descr.length + 1) := by
    rw [hdn]; exact read_null_terminated_ok _ _ _ hdesc_nz hdesc_len hdesc_utf8
  have hdp : (write_wapp meta payload).drop
      (5 + (meta.name.length + 1) + (meta.descr.length + 1)) = payload := by
    have hgroup : write_wapp meta payload =
        ((WAPP_MAGIC ++ [WAPP_VERSION]) ++ meta.name ++ [0] ++ meta.descr ++ [0]) ++ payload := by
      simp [write_wapp, List.append_assoc]
    rw [hgroup]
    refine List.drop_left' ?_
    simp [WAPP_MAGIC, List.length_append]
    omega
  rw [load_wapp_stage (write_wapp meta payload) meta.name meta.descr
    (meta.name.length + 1) (meta.descr.length + 1) hlen hm hv hname hdesc]
  rw [hdp]
  rw [if_pos (by omega : 4 ≤ payload.length),
    if_neg (by rw [hpmagic]; exact fun hc => hc rfl)]

theorem load_write_roundTrip_witness :
    load_wapp (write_wapp ⟨[104, 105], [121, 111]⟩ [0, 0x61, 0x73, 0x6D, 1, 0, 0, 0]) =
      .ok ([0, 0x61, 0x73, 0x6D, 1, 0, 0, 0], ⟨[104, 105], [121, 111]⟩) :=
  load_write_roundTrip ⟨[104, 105], [121, 111]⟩ [0, 0x61, 0x73, 0x6D, 1, 0, 0, 0]
    (by decide) (by decide) (by decide) (by decide) (by decide) (by decide)
    (by decide) (by decide)

/-- C5 counterexample. A container whose magic matches and whose 4-byte
little-endian field at offset 4 equals 257 (not 1) loads successfully: the
loader checks only the single byte at offset 4 (here 1) and treats bytes 5-7 as
metadata, so the claim "4-byte version field not equal to 1 implies the
unsupported-version error" is false. -/
theorem version_field_le32_not_checked :
    ([0x57, 0x41, 0x50, 0x50, 1, 1, 0, 0, 0, 0x61, 0x73, 0x6D, 1, 0, 0, 0] :
        List Byte).take 4 = WAPP_MAGIC ∧
    readU32le [0x57, 0x41, 0x50, 0x50, 1, 1, 0, 0, 0, 0x61, 0x73, 0x6D, 1, 0, 0, 0] 4 = 257 ∧
    (257 : Nat) ≠ 1 ∧
    load_wapp [0x57, 0x41, 0x50, 0x50, 1, 1, 0, 0, 0, 0x61, 0x73, 0x6D, 1, 0, 0, 0] =
      .ok ([0, 0x61, 0x73, 0x6D, 1, 0, 0, 0], ⟨[1], []⟩) :=
  ⟨rfl, rfl, by decide, rfl⟩

/-- C5 amended. The version field is the single byte at offset 4. For every
container of at least the minimum size whose magic matches: a version byte other
than 1 fails loading with the unsupported-version error, and a version byte
equal to 1 never produces that error. -/
theorem version_byte_check (data : List Byte)
    (hlen : WAPP_MIN_SIZE ≤ data.length) (hmagic : data.take 4 = WAPP_MAGIC) :
    (data.getD 4 0 ≠ WAPP_VERSION → load_wapp data = .error .unsupportedVersion) ∧
    (data.getD 4 0 = WAPP_VERSION → load_wapp data ≠ .error .unsupportedVersion) := by
  have h1 : ¬ data.length < WAPP_MIN_SIZE := by omega
  constructor
  · intro hv
    unfold load_wapp
    rw [if_neg h1, if_neg (by rw [hmagic]; exact fun hc => hc rfl), if_pos hv]
  · intro hv hcontra
    unfold load_wapp at hcontra
    rw [if_neg h1, if_neg (by rw [hmagic]; exact fun hc => hc rfl),
      if_neg (by rw [hv]; exact fun hc => hc rfl)] at hcontra
    repeat' split at hcontra
    all_goals simp at hcontra

theorem version_byte_check_witness :
    load_wapp [0x57, 0x41, 0x50, 0x50, 2, 0, 0, 0, 0x61, 0x73, 0x6D, 0, 0, 0, 0] =
      .error .unsupportedVersion :=
  (version_byte_check [0x57, 0x41, 0x50, 0x50, 2, 0, 0, 0, 0x61, 0x73, 0x6D, 0, 0, 0, 0]
    (by decide) (by decide)).1 (by decide)

/-- C6 counterexample. The metadata block is not a key/value structure but two
positional null-terminated strings, and a malformed block IS a hard error: in
this container (valid magic, valid version, 15 bytes) the name parses as empty
but the description field has no null terminator, so loading fails rather than
defaulting the missing field to an empty string. -/
theorem metadata_missing_terminator_fails :
    ([0x57, 0x41, 0x50, 0x50, 1, 0, 97, 97, 97, 97, 97, 97, 97, 97, 97] :
        List Byte).take 4 = WAPP_MAGIC ∧
    ([0x57, 0x41, 0x50, 0x50, 1, 0, 97, 97, 97, 97, 97, 97, 97, 97, 97] :
        List Byte).getD 4 0 = WAPP_VERSION ∧
    load_wapp [0x57, 0x41, 0x50, 0x50, 1, 0, 97, 97, 97, 97, 97, 97, 97, 97, 97] =
      .error .descMissingNull :=
  ⟨rfl, rfl, rfl⟩

/-- C6 amended. Metadata never fails loading ONLY when both null-terminated
string fields parse (terminator found within the 256/1024-byte limit, content is
valid UTF-8); in that case loading proceeds to the payload check and can only
succeed or report the invalid-payload error. A field without a terminator, or
with invalid UTF-8, is a hard metadata error (there are no key/value fields, so
no "unknown field" can arise). -/
theorem metadata_parsed_never_fails (data name descr : List Byte) (c1 c2 : Nat)
    (hlen : WAPP_MIN_SIZE ≤ data.length)
    (hmagic : data.take 4 = WAPP_MAGIC)
    (hver : data.getD 4 0 = WAPP_VERSION)
    (hname : read_null_terminated (data.drop 5) 256 = .ok (name, c1))
    (hdesc : read_null_terminated (data.drop (5 + c1)) 1024 = .ok (descr, c2)) :
    load_wapp data = .ok (data.drop (5 + c1 + c2), ⟨name, descr⟩) ∨
    load_wapp data = .error .invalidWasmMagic := by
  rw [load_wapp_stage data name descr c1 c2 hlen hmagic hver hname hdesc]
  split
  · split
    · right; rfl
    · left; rfl
  · left; rfl

theorem metadata_parsed_never_fails_witness :
    load_wapp [0x57, 0x41, 0x50, 0x50, 1, 0, 0, 0, 0x61, 0x73, 0x6D, 1, 0, 0, 0] =
      .ok (([0x57, 0x41, 0x50, 0x50, 1, 0, 0, 0, 0x61, 0x73, 0x6D, 1, 0, 0, 0] :
        List Byte).drop (5 + 1 + 1), ⟨[], []⟩) ∨
    load_wapp [0x57, 0x41, 0x50, 0x50, 1, 0, 0, 0, 0x61, 0x73, 0x6D, 1, 0, 0, 0] =
      .error .invalidWasmMagic :=
  metadata_parsed_never_fails [0x57, 0x41, 0x50, 0x50, 1, 0, 0, 0, 0x61, 0x73, 0x6D, 1, 0, 0, 0]
    [] [] 1 1 (by decide) (by decide) (by decide) rfl rfl

/-- C7 counterexample. A payload shorter than the 4-byte WASM magic is NOT
rejected: the loader checks the payload's leading bytes only when at least 4
payload bytes exist, so this container (8-byte name, empty description, 2-byte
payload `[1, 2]`) loads successfully even though its payload does not begin
with the WASM magic — refuting "whenever they do not (including payloads
shorter than the magic itself), loading fails with the invalid-payload error". -/
theorem short_payload_skips_magic_check :
    load_wapp ([0x57, 0x41, 0x50, 0x50, 1] ++
        [97, 97, 97, 97, 97, 97, 97, 97, 0] ++ [0] ++ [1, 2]) =
      .ok ([1, 2], ⟨[97, 97, 97, 97, 97, 97, 97, 97], []⟩) ∧
    ([1, 2] : List Byte).take 4 ≠ WASM_MAGIC :=
  ⟨rfl, by decide⟩

/-- C7 amended. For every container passing the header and metadata stages,
with payload the remainder after the parsed metadata: if the payload has at
least 4 bytes and its leading 4 bytes differ from the WASM magic, loading
fails with the invalid-payload error; if its leading bytes equal the magic,
loading succeeds; and if the payload is shorter than 4 bytes the magic check is
skipped entirely and loading also succeeds. -/
theorem payload_magic_check (data name descr : List Byte) (c1 c2 : Nat)
    (hlen : WAPP_MIN_SIZE ≤ data.length)
    (hmagic : data.take 4 = WAPP_MAGIC)
    (hver : data.getD 4 0 = WAPP_VERSION)
    (hname : read_null_terminated (data.drop 5) 256 = .ok (name, c1))
    (hdesc : read_null_terminated (data.drop (5 + c1)) 1024 = .ok (descr, c2)) :
    (4 ≤ (data.drop (5 + c1 + c2)).length → (data.drop (5 + c1 + c2)).take 4 ≠ WASM_MAGIC →
      load_wapp data = .error .invalidWasmMagic) ∧
    ((data.drop (5 + c1 + c2)).take 4 = WASM_MAGIC →
      load_wapp data = .ok (data.drop (5 + c1 + c2), ⟨name, descr⟩)) ∧
    ((data.drop (5 + c1 + c2)).length < 4 →
      load_wapp data = .ok (data.drop (5 + c1 + c2), ⟨name, descr⟩)) := by
  rw [load_wapp_stage data name descr c1 c2 hlen hmagic hver hname hdesc]
  refine ⟨fun h4 hw => ?_, fun hw => ?_, fun h4 => ?_⟩
  · rw [if_pos h4, if_pos hw]
  · have h4 : 4 ≤ (data.drop (5 + c1 + c2)).length := by
      have hl := congrArg List.length hw
      simp [List.length_take, WASM_MAGIC] at hl
      simp only [List.length_drop] at hl ⊢
      omega
    rw [if_pos h4, if_neg (by rw [hw]; exact fun hc => hc rfl)]
  · rw [if_neg (Nat.not_le.mpr h4)]

theorem payload_magic_check_witness :
    load_wapp [0x57, 0x41, 0x50, 0x50, 1, 0, 0, 1, 2, 3, 4, 5, 6, 7, 8] =
      .error .invalidWasmMagic :=
  (payload_magic_check [0x57, 0x41, 0x50, 0x50, 1, 0, 0, 1, 2, 3, 4, 5, 6, 7, 8]
    [] [] 1 1 (by decide) (by decide) (by decide) rfl rfl).1
    (by decide) (by decide)

/-! ## Frame hand-off buffer lemmas -/

theorem vecResize_length (v : List Byte) (n : Nat) : (vecResize v n).length = n := by
  simp [vecResize, List.length_take, List.length_replicate]
  omega

theorem copyFromSlice_resize (v p : List Byte) :
    copyFromSlice (vecResize v p.length) p = p := by
  simp [copyFromSlice, vecResize_length]

theorem set_frame_buffer (s : HostInterface) (w h : Int) (p : List Byte) :
    (s.set_frame w h p).frame_buffer = p :=
  copyFromSlice_resize _ _

theorem borrow_frame_preserves (s : HostInterface) :
    ((s.borrow_frame).2).frame_buffer = s.frame_buffer ∧
    ((s.borrow_frame).2).frame_len = s.frame_len := by
  by_cases hd : s.frame_dirty <;> simp [HostInterface.borrow_frame, hd]

/-- C8. `take_frame` called twice with no intervening `set_frame` always reports
"no new frame" the second time, whatever the starting state; the first call
returns a value exactly when the dirty flag is set (the flag that only
`set_frame` raises); and immediately after a `set_frame(w, h, p)` the take
returns exactly the stored `(w, h, p)`. -/
theorem take_frame_twice (s : HostInterface) (w h : Int) (p : List Byte) :
    (((s.borrow_frame).2).borrow_frame).1 = none ∧
    ((s.borrow_frame).1).isSome = s.frame_dirty ∧
    ((s.set_frame w h p).borrow_frame).1 = some (w, h, p) := by
  refine ⟨?_, ?_, ?_⟩
  · by_cases hd : s.frame_dirty <;> simp [HostInterface.borrow_frame, hd]
  · by_cases hd : s.frame_dirty <;> simp [HostInterface.borrow_frame, hd]
  · simp [HostInterface.borrow_frame, HostInterface.set_frame, copyFromSlice_resize,
      List.take_length]

/-- C9. Two consecutive `set_frame` calls with no take in between leave a state
identical to one produced by the second call alone — every trace of the first
frame is gone, so no later take can ever observe it — and the next take returns
exactly the second frame's width, height and bytes. -/
theorem set_frame_overwrites (s : HostInterface) (w1 h1 w2 h2 : Int) (p1 p2 : List Byte) :
    (s.set_frame w1 h1 p1).set_frame w2 h2 p2 = s.set_frame w2 h2 p2 ∧
    (((s.set_frame w1 h1 p1).set_frame w2 h2 p2).borrow_frame).1 = some (w2, h2, p2) := by
  constructor
  · simp [HostInterface.set_frame, copyFromSlice_resize]
  · simp [HostInterface.set_frame, HostInterface.borrow_frame, copyFromSlice_resize,
      List.take_length]

theorem foldl_lastSetStep (ops : List FrameOp) (acc : Option (List Byte)) :
    ops.foldl lastSetStep acc = (lastSetPixels ops).or acc := by
  induction ops generalizing acc with
  | nil => simp [lastSetPixels]
  | cons op rest ih =>
    cases op with
    | set w h p =>
      show rest.foldl lastSetStep (some p) = (rest.foldl lastSetStep (some p)).or acc
      rw [ih (some p)]
      cases hq : lastSetPixels rest <;> simp [hq, Option.or]
    | take =>
      show rest.foldl lastSetStep acc = (rest.foldl lastSetStep none).or acc
      exact ih acc

theorem runFrameOps_noSet (ops : List FrameOp) : ∀ (s : HostInterface),
    lastSetPixels ops = none →
    (runFrameOps s ops).frame_buffer = s.frame_buffer ∧
    (runFrameOps s ops).frame_len = s.frame_len := by
  induction ops with
  | nil => exact fun s _ => ⟨rfl, rfl⟩
  | cons op rest ih =>
    intro s hnone
    cases op with
    | set w h p =>
      exfalso
      have heq : lastSetPixels (FrameOp.set w h p :: rest) =
          (lastSetPixels rest).or (some p) := foldl_lastSetStep rest (some p)
      rw [heq] at hnone
      cases hq : lastSetPixels rest <;> simp [hq, Option.or] at hnone
    | take =>
      have hrest : lastSetPixels rest = none := hnone
      have h1 := ih ((s.borrow_frame).2) hrest
      have h2 := borrow_frame_preserves s
      refine ⟨?_, ?_⟩
      · show (runFrameOps ((s.borrow_frame).2) rest).frame_buffer = s.frame_buffer
        rw [h1.1, h2.1]
      · show (runFrameOps ((s.borrow_frame).2) rest).frame_len = s.frame_len
        rw [h1.2, h2.2]

theorem runFrameOps_lastSet (ops : List FrameOp) : ∀ (s : HostInterface) (p : List Byte),
    lastSetPixels ops = some p →
    (runFrameOps s ops).frame_buffer = p ∧
    (runFrameOps s ops).frame_len = p.length := by
  induction ops with
  | nil => intro s p h; simp [lastSetPixels] at h
  | cons op rest ih =>
    intro s p h
    cases op with
    | take => exact ih ((s.borrow_frame).2) p h
    | set w h0 p0 =>
      have heq : lastSetPixels (FrameOp.set w h0 p0 :: rest) =
          (lastSetPixels rest).or (some p0) := foldl_lastSetStep rest (some p0)
      rw [heq] at h
      cases hq : lastSetPixels rest with
      | some q =>
        rw [hq] at h
        have hqp : q = p := by simpa [Option.or] using h
        subst hqp
        exact ih (s.set_frame w h0 p0) q hq
      | none =>
        rw [hq] at h
        have hp0 : p0 = p := by simpa [Option.or] using h
        subst hp0
        have hrest := runFrameOps_noSet rest (s.set_frame w h0 p0) hq
        refine ⟨?_, ?_⟩
        · show (runFrameOps (s.set_frame w h0 p0) rest).frame_buffer = p0
          rw [hrest.1, set_frame_buffer]
        · show (runFrameOps (s.set_frame w h0 p0) rest).frame_len = p0.length
          rw [hrest.2]
          rfl

/-- C10. Invariant of the hand-off buffer: after ANY finite sequence of
`set_frame`/`take_frame` operations from any starting state, whenever the most
recent `set_frame` stored pixel data `p`, a successful `take_frame` returns a
byte slice that is exactly `p` — in particular of exactly `p`'s length — so a
larger earlier frame's leftover bytes in the reused storage are never exposed. -/
theorem take_frame_matches_last_set (s : HostInterface) (ops : List FrameOp)
    (p : List Byte) (r : Int × Int × List Byte)
    (hset : lastSetPixels ops = some p)
    (htake : ((runFrameOps s ops).borrow_frame).1 = some r) :
    r.2.2 = p ∧ r.2.2.length = p.length := by
  obtain ⟨hb, hl⟩ := runFrameOps_lastSet ops s p hset
  unfold HostInterface.borrow_frame at htake
  by_cases hd : (runFrameOps s ops).frame_dirty
  · rw [if_pos hd] at htake
    have hr := Option.some.inj htake
    rw [← hr]
    simp [hb, hl, List.take_length]
  · rw [if_neg hd] at htake
    simp at htake

theorem take_frame_matches_last_set_witness :
    lastSetPixels [FrameOp.set 1 1 [9, 9, 9, 9, 9, 9, 9, 9], FrameOp.take,
      FrameOp.set 2 2 [1, 2, 3, 4]] = some [1, 2, 3, 4] ∧
    ((runFrameOps HostInterface.new [FrameOp.set 1 1 [9, 9, 9, 9, 9, 9, 9, 9], FrameOp.take,
      FrameOp.set 2 2 [1, 2, 3, 4]]).borrow_frame).1 = some (2, 2, [1, 2, 3, 4]) ∧
    (((2 : Int), (2 : Int), ([1, 2, 3, 4] : List Byte)).2.2 = [1, 2, 3, 4] ∧
      ((2 : Int), (2 : Int), ([1, 2, 3, 4] : List Byte)).2.2.length =
        ([1, 2, 3, 4] : List Byte).length) :=
  ⟨rfl, rfl,
    take_frame_matches_last_set HostInterface.new
      [FrameOp.set 1 1 [9, 9, 9, 9, 9, 9, 9, 9], FrameOp.take, FrameOp.set 2 2 [1, 2, 3, 4]]
      [1, 2, 3, 4] (2, 2, [1, 2, 3, 4]) rfl rfl⟩

/-! ## Memory bridge and export resolution theorems -/

/-- C1. The bounds check of `update_frame` computes `width * height * 4` in
wrapping `i32` arithmetic, so it does not enforce the claimed mathematical
bound `pointer + width*height*4 ≤ memory size`: at
`(width, height, pointer) = (65536, 65536, 0)` against an empty guest memory
the requested frame (`2^34` bytes, mathematically far out of bounds) slips
through the check with a wrapped length of `0`, and the hand-off buffer is
overwritten (`width`/`height` change and the dirty flag is raised) instead of
remaining untouched.  At `(width, height, pointer) = (-1, 1, 4)` the wrapped
`usize` range even makes the slice index panic (modelled as `none`), crashing
the host instead of returning without error. -/
theorem update_frame_overflow_at_failing_input :
    ((0 : Int) + 65536 * 65536 * 4 > (([] : List Byte).length : Int)) ∧
    update_frame [] HostInterface.new 65536 65536 0 =
      some (HostInterface.new.set_frame 65536 65536 []) ∧
    HostInterface.new.set_frame 65536 65536 [] ≠ HostInterface.new ∧
    (HostInterface.new.set_frame 65536 65536 []).frame_dirty = true ∧
    update_frame (List.replicate 8 7) HostInterface.new (-1) 1 4 = none := by
  refine ⟨by decide, by decide, by decide, rfl, by decide⟩

/-- C3 counterexample. A guest module that exports nothing at all does not
export `update`, yet instantiation fails with the missing-memory error, not the
missing-required-export error: the memory check runs first. -/
theorem missing_update_without_memory_error :
    get_typed_func [] ("update" : String) .f64_unit = none ∧
    resolve_instance ([] : ModuleExports) = .error .missingMemoryExport ∧
    SandboxInitError.missingMemoryExport ≠ SandboxInitError.missingRequiredExport :=
  ⟨rfl, rfl, by decide⟩

/-- C3 amended. A guest module exporting exactly a linear memory named `memory`
and `update` with the `(f64) -> ()` signature instantiates successfully (with
every optional entry point absent); a module that exports the memory but
resolves no `update` of that signature fails with the missing-required-export
error; and a module without the `memory` export fails with the missing-memory
error regardless of its other exports. -/
theorem resolve_instance_exports (m : ModuleExports) :
    resolve_instance [(("memory" : String), ExportDesc.memory),
      (("update" : String), ExportDesc.func .f64_unit)] =
      .ok ⟨some (), none, none, none, none, none, none⟩ ∧
    (get_memory m = some () → get_typed_func m ("update" : String) .f64_unit = none →
      resolve_instance m = .error .missingRequiredExport) ∧
    (get_memory m = none → resolve_instance m = .error .missingMemoryExport) := by
  refine ⟨rfl, fun hmem hupd => ?_, fun hmem => ?_⟩
  · unfold resolve_instance
    rw [hmem]
    simp [hupd]
  · unfold resolve_instance
    rw [hmem]

theorem resolve_instance_exports_witness :
    resolve_instance [(("memory" : String), ExportDesc.memory)] =
      .error .missingRequiredExport :=
  (resolve_instance_exports [(("memory" : String), ExportDesc.memory)]).2.1 rfl rfl

end Wapps
